import Mathlib

/-!
Verification development for the Blackjack-GestureAI backend.

The definitions below are a shallow embedding of the Python source:

* `backend/services/game_service.py` — cards, deck construction, scoring,
  betting, hit/stand, dealer auto-play, winner determination, payout
  settlement, round/full reset;
* `backend/routes/game_routes.py` — the transport-level phase guards for
  hit/stand;
* `backend/services/gesture_service.py` — the gesture detector's debounce
  logic;
* the session janitor (`cleanup_old_sessions`), whose implementation is not
  part of the repository's files and is modelled from the specification.

Randomness (`random.shuffle`, the simulated gesture draw) is modelled by
passing the drawn value in as an explicit argument; theorems that need the
shuffle to be a permutation take that as a hypothesis.  Timestamps are
rationals; Python ints are `Int` (balances) or `Nat` (scores, counters,
stored bets, which are never negative in the source).
-/

/-- Card suits: `["hearts", "diamonds", "clubs", "spades"]` in the source. -/
inductive Suit where
  | hearts | diamonds | clubs | spades
deriving DecidableEq, Repr

/-- Card ranks: `["A", "2", ..., "10", "J", "Q", "K"]` in the source. -/
inductive Rank where
  | ace | two | three | four | five | six | seven | eight | nine | ten
  | jack | queen | king
deriving DecidableEq, Repr

/-- A card is the pair `{"rank": ..., "suit": ...}`. -/
structure Card where
  rank : Rank
  suit : Suit
deriving DecidableEq, Repr

def all_suits : List Suit := [.hearts, .diamonds, .clubs, .spades]

def all_ranks : List Rank :=
  [.ace, .two, .three, .four, .five, .six, .seven, .eight, .nine, .ten,
   .jack, .queen, .king]

/-- Models `create_deck`: the 52-card deck, suit-major then rank-minor, exactly as
the nested `for suit in suits: for rank in ranks` loops build it. -/
def create_deck : List Card :=
  all_suits.flatMap (fun s => all_ranks.map (fun r => ⟨r, s⟩))

/-- The value a rank contributes on first pass in `calculate_score`:
ace counts 11, face cards 10, the rest `int(rank)`. -/
def rank_base_value : Rank → Nat
  | .ace => 11
  | .two => 2
  | .three => 3
  | .four => 4
  | .five => 5
  | .six => 6
  | .seven => 7
  | .eight => 8
  | .nine => 9
  | .ten => 10
  | .jack => 10
  | .queen => 10
  | .king => 10

/-- The accumulation loop of `calculate_score`: a left fold producing
`(total, aces)` over the hand. -/
def hand_totals (hand : List Card) : Nat × Nat :=
  hand.foldl
    (fun p c =>
      (p.1 + rank_base_value c.rank, p.2 + if c.rank = .ace then 1 else 0))
    (0, 0)

/-- The `while aces > 0 and total > 21` adjustment loop of
`calculate_score`, structurally recursive on the ace count. -/
def adjust_aces (total : Nat) : Nat → Nat
  | 0 => total
  | aces + 1 => if 21 < total then adjust_aces (total - 10) aces else total

/-- Models `calculate_score(hand)` from `game_service.py`. -/
def calculate_score (hand : List Card) : Nat :=
  if hand = [] then 0
  else
    let t := hand_totals hand
    adjust_aces t.1 t.2

/-- Models `is_blackjack(hand)`: 21 with exactly two cards. -/
def is_blackjack (hand : List Card) : Bool :=
  hand.length = 2 && calculate_score hand = 21

/-- The least possible value of a hand, counting every ace as 1; used to
state the claim that ace demotion always rescues a rescuable hand. -/
def min_hand_score (hand : List Card) : Nat :=
  (hand.map (fun c => if c.rank = .ace then 1 else rank_base_value c.rank)).sum

/-- The number of aces in a hand. -/
def ace_count (hand : List Card) : Nat :=
  (hand.filter (fun c => c.rank = .ace)).length

-- Relating the fold of `hand_totals` to `min_hand_score` and `ace_count`.

theorem hand_totals_go (hand : List Card) (t a : Nat) :
    hand.foldl
      (fun p c =>
        (p.1 + rank_base_value c.rank, p.2 + if c.rank = .ace then 1 else 0))
      (t, a)
      = (t + min_hand_score hand + 10 * ace_count hand, a + ace_count hand) := by
  induction hand generalizing t a with
  | nil => simp [min_hand_score, ace_count]
  | cons c rest ih =>
    simp only [List.foldl_cons, ih, min_hand_score, ace_count, List.map_cons,
      List.sum_cons, List.filter_cons]
    by_cases h : c.rank = .ace
    · simp [h, rank_base_value]
      omega
    · simp [h]
      omega

theorem hand_totals_eq (hand : List Card) :
    hand_totals hand
      = (min_hand_score hand + 10 * ace_count hand, ace_count hand) := by
  simpa using hand_totals_go hand 0 0

theorem adjust_aces_le (m : Nat) (hm : m ≤ 21) :
    ∀ a : Nat, adjust_aces (m + 10 * a) a ≤ 21 := by
  intro a
  induction a generalizing m with
  | zero => simpa [adjust_aces]
  | succ n ih =>
    simp only [adjust_aces]
    by_cases h : 21 < m + 10 * (n + 1)
    · simp only [h, if_true]
      have : m + 10 * (n + 1) - 10 = m + 10 * n := by omega
      rw [this]
      exact ih m hm
    · simpa [h] using Nat.le_of_not_lt h

theorem calculate_score_le (hand : List Card)
    (h : min_hand_score hand ≤ 21) : calculate_score hand ≤ 21 := by
  unfold calculate_score
  by_cases he : hand = []
  · simp [he]
  · simp only [he, if_false]
    rw [hand_totals_eq]
    exact adjust_aces_le _ h _

-- Concrete hands used by the spec's examples.
def hand_a_a_9 : List Card :=
  [⟨.ace, .hearts⟩, ⟨.ace, .spades⟩, ⟨.nine, .clubs⟩]

def hand_a_a_a_9 : List Card :=
  [⟨.ace, .hearts⟩, ⟨.ace, .spades⟩, ⟨.ace, .diamonds⟩, ⟨.nine, .clubs⟩]

theorem calculate_score_eq_adjust (hand : List Card) :
    calculate_score hand
      = adjust_aces (min_hand_score hand + 10 * ace_count hand)
          (ace_count hand) := by
  by_cases hne : hand = []
  · subst hne
    rfl
  · simp [calculate_score, hne, hand_totals_eq]

/-- C5: for every hand (busting ones included), `score(hand)` sums rank
values (face = 10, ace = 11 first), then demotes one ace at a time while
the total exceeds 21 and an ace counted as 11 remains; the empty hand
scores 0; `[A,A,9] = 21`, `[A,A,A,9] = 12`; and the result is at most 21
whenever counting every ace as 1 could bring the hand to 21 or below. -/
theorem calculate_score_spec (hand : List Card) :
    calculate_score [] = 0 ∧
    calculate_score hand_a_a_9 = 21 ∧
    calculate_score hand_a_a_a_9 = 12 ∧
    calculate_score hand
      = adjust_aces (min_hand_score hand + 10 * ace_count hand)
          (ace_count hand) ∧
    (min_hand_score hand ≤ 21 → calculate_score hand ≤ 21) :=
  ⟨rfl, by decide, by decide, calculate_score_eq_adjust hand,
   calculate_score_le hand⟩

/-- Witness for C5 at the concrete hand `[A,A,A,9]`. -/
theorem calculate_score_spec_witness :
    min_hand_score hand_a_a_a_9 ≤ 21 ∧ calculate_score hand_a_a_a_9 ≤ 21 :=
  ⟨by decide, (calculate_score_spec hand_a_a_a_9).2.2.2.2 (by decide)⟩

/-- A game session record (the dict stored in `_games[session_id]`).  The
`lastActivity` timestamp is not part of this record: the session-janitor
model below tracks it alongside each stored record, since no game rule
reads it. -/
structure Game where
  deck : List Card
  dealerHand : List Card
  playerHand : List Card
  dealerScore : Nat
  playerScore : Nat
  playerMoney : Int
  bet : Nat
  gameState : String
  winner : Option String
  message : String
  isBlackjack : Bool
  roundsWon : Nat
  roundsLost : Nat
  roundsPushed : Nat
deriving DecidableEq, Repr

/-- Models `initialize_game`: the fresh record installed on first access for a
session identifier. -/
def init_game : Game where
  deck := []
  dealerHand := []
  playerHand := []
  dealerScore := 0
  playerScore := 0
  playerMoney := 1000
  bet := 0
  gameState := "idle"
  winner := none
  message := "Welcome to Blackjack! Place your bet to start."
  isBlackjack := false
  roundsWon := 0
  roundsLost := 0
  roundsPushed := 0

/-- Models `reset_game`: unconditionally installs the same fresh record as first
initialization (the source writes the identical literal dict). -/
def reset_game : Game where
  deck := []
  dealerHand := []
  playerHand := []
  dealerScore := 0
  playerScore := 0
  playerMoney := 1000
  bet := 0
  gameState := "idle"
  winner := none
  message := "Welcome to Blackjack! Place your bet to start."
  isBlackjack := false
  roundsWon := 0
  roundsLost := 0
  roundsPushed := 0

/-- Models `handle_round_over(session_id, winner, message)`: payout, statistics,
phase and winner fields.  `int(bet * 1.5)` truncates, which on the
nonnegative bets the store holds equals `3 * bet / 2` in `Nat`. -/
def handle_round_over (g : Game) (winner : String) (message : String) : Game :=
  let g1 :=
    if winner = "player" then
      if g.isBlackjack then
        { g with
          playerMoney := g.playerMoney + ((g.bet + 3 * g.bet / 2 : Nat) : Int),
          roundsWon := g.roundsWon + 1 }
      else
        { g with
          playerMoney := g.playerMoney + ((g.bet * 2 : Nat) : Int),
          roundsWon := g.roundsWon + 1 }
    else if winner = "dealer" then
      { g with
        playerMoney := g.playerMoney - (g.bet : Int),
        roundsLost := g.roundsLost + 1 }
    else
      { g with roundsPushed := g.roundsPushed + 1 }
  { g1 with
    gameState := "round_over", winner := some winner, message := message }

theorem handle_round_over_winner (g : Game) (w msg : String) :
    (handle_round_over g w msg).winner = some w := rfl

theorem handle_round_over_gameState (g : Game) (w msg : String) :
    (handle_round_over g w msg).gameState = "round_over" := rfl

/-- C1: settlement with winner `w` and active bet `b`: a blackjack player
win pays `b + floor(b * 1.5)` and bumps `roundsWon`; an ordinary player
win pays `2 * b`; a dealer win subtracts `b` and bumps `roundsLost`; a
push leaves the balance alone and bumps `roundsPushed`; the phase always
becomes `round_over` with the winner recorded. -/
theorem handle_round_over_spec (g : Game) (w msg : String) :
    ((w = "player" ∧ g.isBlackjack = true) →
      (handle_round_over g w msg).playerMoney
          = g.playerMoney + ((g.bet + 3 * g.bet / 2 : Nat) : Int) ∧
      (handle_round_over g w msg).roundsWon = g.roundsWon + 1) ∧
    ((w = "player" ∧ g.isBlackjack = false) →
      (handle_round_over g w msg).playerMoney
          = g.playerMoney + ((g.bet * 2 : Nat) : Int) ∧
      (handle_round_over g w msg).roundsWon = g.roundsWon + 1) ∧
    (w = "dealer" →
      (handle_round_over g w msg).playerMoney
          = g.playerMoney - (g.bet : Int) ∧
      (handle_round_over g w msg).roundsLost = g.roundsLost + 1) ∧
    (w = "push" →
      (handle_round_over g w msg).playerMoney = g.playerMoney ∧
      (handle_round_over g w msg).roundsPushed = g.roundsPushed + 1) ∧
    (handle_round_over g w msg).gameState = "round_over" ∧
    (handle_round_over g w msg).winner = some w := by
  refine ⟨?_, ?_, ?_, ?_, rfl, rfl⟩
  · rintro ⟨rfl, hbj⟩
    simp [handle_round_over, hbj]
  · rintro ⟨rfl, hbj⟩
    simp [handle_round_over, hbj]
  · rintro rfl
    simp [handle_round_over]
  · rintro rfl
    simp [handle_round_over]

/-- Models `decide_winner(session_id)`: the if/elif chain over the two final
scores.  The source checks the player bust before the dealer bust. -/
def decide_winner (g : Game) : Game :=
  if g.playerScore > 21 then
    handle_round_over g "dealer" "You busted!"
  else if g.dealerScore > 21 then
    handle_round_over g "player" "Dealer busted! You win!"
  else if g.playerScore > g.dealerScore then
    handle_round_over g "player"
      ("You win! " ++ toString g.playerScore ++ " beats "
        ++ toString g.dealerScore)
  else if g.dealerScore > g.playerScore then
    handle_round_over g "dealer"
      ("Dealer wins! " ++ toString g.dealerScore ++ " beats "
        ++ toString g.playerScore)
  else
    handle_round_over g "push" ("Push! Both have " ++ toString g.playerScore)

/-- A session whose two final scores both exceed 21. -/
def both_bust_game : Game :=
  { init_game with
    playerScore := 22, dealerScore := 22, gameState := "in_progress" }

/-- C2 counterexample: with both final scores above 21 the code awards the
round to the dealer (the player-bust test comes first in the if/elif
chain), not to the player as the claimed precedence (dealer-bust rule
first) would require. -/
theorem decide_winner_both_bust_dealer :
    (decide_winner both_bust_game).winner = some "dealer" ∧
    ¬ (decide_winner both_bust_game).winner = some "player" := by
  exact ⟨rfl, by decide⟩

/-- C2 amended: winner determination checks the player bust first — player
score > 21 gives the round to the dealer even when the dealer also busted;
otherwise dealer > 21 gives it to the player; otherwise (both at most 21)
the strictly higher score wins and equal scores push. -/
theorem decide_winner_spec (g : Game) :
    (21 < g.playerScore → (decide_winner g).winner = some "dealer") ∧
    (g.playerScore ≤ 21 → 21 < g.dealerScore →
      (decide_winner g).winner = some "player") ∧
    (g.playerScore ≤ 21 → g.dealerScore ≤ 21 →
      g.dealerScore < g.playerScore →
      (decide_winner g).winner = some "player") ∧
    (g.playerScore ≤ 21 → g.dealerScore ≤ 21 →
      g.playerScore < g.dealerScore →
      (decide_winner g).winner = some "dealer") ∧
    (g.playerScore ≤ 21 → g.playerScore = g.dealerScore →
      (decide_winner g).winner = some "push") ∧
    (decide_winner g).gameState = "round_over" := by
  refine ⟨?_, ?_, ?_, ?_, ?_, ?_⟩
  · intro h
    simp [decide_winner, h, handle_round_over_winner]
  · intro h1 h2
    simp [decide_winner, Nat.not_lt.mpr h1, h2, handle_round_over_winner]
  · intro h1 h2 h3
    simp [decide_winner, Nat.not_lt.mpr h1, Nat.not_lt.mpr h2, h3,
      handle_round_over_winner]
  · intro h1 h2 h3
    simp [decide_winner, Nat.not_lt.mpr h1, Nat.not_lt.mpr h2,
      Nat.lt_asymm h3, h3, handle_round_over_winner]
  · intro h1 h2
    have h1' : g.dealerScore ≤ 21 := h2 ▸ h1
    simp [decide_winner, Nat.not_lt.mpr h1, Nat.not_lt.mpr h1', h2,
      handle_round_over_winner]
  · unfold decide_winner
    split <;> first
      | exact handle_round_over_gameState ..
      | (split <;> first
          | exact handle_round_over_gameState ..
          | (split <;> first
              | exact handle_round_over_gameState ..
              | (split <;> exact handle_round_over_gameState ..)))

/-- Models `new_round(session_id)` on an existing record: the `game.update` call
that clears the round data while carrying over `playerMoney` and the three
round counters. -/
def new_round (g : Game) : Game :=
  { g with
    deck := []
    dealerHand := []
    playerHand := []
    dealerScore := 0
    playerScore := 0
    bet := 0
    gameState := "idle"
    winner := none
    message := "Place your bet to start a new round"
    isBlackjack := false }

/-- C7: `newRound` preserves the balance and the three counters while
clearing deck, hands, scores, bet, winner and the blackjack flag and
returning to `idle`; `fullReset` installs a fresh idle record at the
starting balance 1000 with all counters zero. -/
theorem new_round_reset_spec (g : Game) :
    (new_round g).playerMoney = g.playerMoney ∧
    (new_round g).roundsWon = g.roundsWon ∧
    (new_round g).roundsLost = g.roundsLost ∧
    (new_round g).roundsPushed = g.roundsPushed ∧
    (new_round g).deck = [] ∧
    (new_round g).playerHand = [] ∧
    (new_round g).dealerHand = [] ∧
    (new_round g).playerScore = 0 ∧
    (new_round g).dealerScore = 0 ∧
    (new_round g).bet = 0 ∧
    (new_round g).winner = none ∧
    (new_round g).isBlackjack = false ∧
    (new_round g).gameState = "idle" ∧
    reset_game.gameState = "idle" ∧
    reset_game.playerMoney = 1000 ∧
    reset_game.roundsWon = 0 ∧
    reset_game.roundsLost = 0 ∧
    reset_game.roundsPushed = 0 :=
  ⟨rfl, rfl, rfl, rfl, rfl, rfl, rfl, rfl, rfl, rfl, rfl, rfl, rfl, rfl,
   rfl, rfl, rfl, rfl⟩

/-- Models `cards_equal(card1, card2)`: rank and suit both match. -/
def cards_equal (c1 c2 : Card) : Bool :=
  c1.rank == c2.rank && c1.suit == c2.suit

theorem cards_equal_iff (c1 c2 : Card) : cards_equal c1 c2 = true ↔ c1 = c2 := by
  cases c1; cases c2; simp [cards_equal]

/-- Models `remove_used_cards_from_deck(deck, used_cards)`: keep the deck cards
that equal no used card (the nested loops compute exactly this filter). -/
def remove_used_cards_from_deck (deck used_cards : List Card) : List Card :=
  deck.filter (fun c => !(used_cards.any (fun u => cards_equal c u)))

theorem mem_remove_used_cards (deck used : List Card) (c : Card) :
    c ∈ remove_used_cards_from_deck deck used ↔ c ∈ deck ∧ c ∉ used := by
  simp only [remove_used_cards_from_deck, List.mem_filter, List.any_eq_true,
    cards_equal_iff, Bool.not_eq_true', Bool.not_eq_true, List.any_eq_false,
    and_congr_right_iff]
  intro _
  constructor
  · intro h hc
    exact h c hc rfl
  · intro h x hx he
    exact h (he ▸ hx)

/-- The result of `deal_initial_hands`. -/
structure Deal where
  playerHand : List Card
  dealerHand : List Card
  remaining_deck : List Card

/-- Models `deal_initial_hands(deck)`: two cards to the player, two to the
dealer, remainder is the live deck.  `fresh` stands for the
`shuffle_deck(create_deck())` fallback drawn when fewer than four cards
remain. -/
def deal_initial_hands (deck fresh : List Card) : Deal :=
  let d := if deck.length < 4 then fresh else deck
  ⟨d.take 2, (d.drop 2).take 2, d.drop 4⟩

/-- Models `ensure_sufficient_deck(game, cards_needed)`: when the live deck runs
low, rebuild a full deck, drop the cards in either hand, and install the
shuffled remainder.  `shuffle` stands for `shuffle_deck`, passed in as a
function because the source draws it at random. -/
def ensure_sufficient_deck (g : Game) (cards_needed : Nat)
    (shuffle : List Card → List Card) : Game :=
  if g.deck.length < cards_needed then
    { g with
      deck := shuffle
        (remove_used_cards_from_deck create_deck
          (g.playerHand ++ g.dealerHand)) }
  else g

/-- Models `place_bet(session_id, bet_amount)` on the record `g?` (a missing
record is first initialized).  `shuffled` stands for the
`shuffle_deck(create_deck())` draw and `fresh` for the fallback draw
inside `deal_initial_hands`. -/
def place_bet (g? : Option Game) (amount : Int)
    (shuffled fresh : List Card) : Option Game :=
  let g := g?.getD init_game
  if amount < 1 then none
  else if amount > g.playerMoney then none
  else
    let deal := deal_initial_hands shuffled fresh
    let g1 := { g with
      bet := amount.toNat
      deck := deal.remaining_deck
      dealerHand := deal.dealerHand
      playerHand := deal.playerHand
      dealerScore := calculate_score deal.dealerHand
      playerScore := calculate_score deal.playerHand
      winner := none
      message := ""
      isBlackjack := false }
    let player_blackjack := is_blackjack g1.playerHand
    let dealer_blackjack := is_blackjack g1.dealerHand
    if player_blackjack || dealer_blackjack then
      let g2 := { g1 with isBlackjack := true }
      if player_blackjack && dealer_blackjack then
        some (handle_round_over g2 "push" "Both have Blackjack!")
      else if player_blackjack then
        some (handle_round_over g2 "player" "Blackjack! You win!")
      else
        some (handle_round_over g2 "dealer" "Dealer has Blackjack!")
    else
      some { g1 with
        gameState := "in_progress"
        message := "Game in progress. Hit or Stand?" }

/-- Models `hit(session_id)`: outside `in_progress` the service returns the
unchanged record; otherwise it tops up the deck, draws the front card
into the player hand, recomputes the score, and settles a bust. -/
def hit (g? : Option Game) (shuffle : List Card → List Card) : Option Game :=
  match g? with
  | none => none
  | some g =>
    if g.gameState ≠ "in_progress" then some g
    else
      let g1 := ensure_sufficient_deck g 1 shuffle
      match g1.deck with
      | [] => some g1
      | card :: rest =>
        let newHand := g1.playerHand ++ [card]
        let g2 := { g1 with
          deck := rest
          playerHand := newHand
          playerScore := calculate_score newHand }
        if 21 < g2.playerScore then
          some (handle_round_over g2 "dealer" "Bust! You went over 21.")
        else if g2.playerScore = 21 then
          some { g2 with message := "You have 21! Consider standing." }
        else
          some { g2 with
            message := "You have " ++ toString g2.playerScore
              ++ ". Hit or Stand?" }

/-- The dealer auto-play loop of `stand`: draw while the dealer score is
under 17, stopping early on an unreplenishable deck.  The loop draws one
card per iteration and every card is worth at least one point, so the
score passes 17 within far fewer than 52 draws; the explicit fuel merely
makes the recursion structural. -/
def dealer_play (shuffle : List Card → List Card) : Nat → Game → Game
  | 0, g => g
  | fuel + 1, g =>
    if g.dealerScore < 17 then
      let g1 := ensure_sufficient_deck g 1 shuffle
      match g1.deck with
      | [] => g1
      | card :: rest =>
        let newHand := g1.dealerHand ++ [card]
        dealer_play shuffle fuel
          { g1 with
            deck := rest
            dealerHand := newHand
            dealerScore := calculate_score newHand }
    else g

/-- Models `stand(session_id)`: outside `in_progress` the service returns the
unchanged record; otherwise the dealer auto-plays and the winner is
decided. -/
def stand (g? : Option Game) (shuffle : List Card → List Card) : Option Game :=
  match g? with
  | none => none
  | some g =>
    if g.gameState ≠ "in_progress" then some g
    else some (decide_winner (dealer_play shuffle 52 g))

/-- The typed errors of the transport layer (`game_routes.py`). -/
inductive ApiError where
  | notInitialized
  | wrongPhase (phase : String)
  | internalError
deriving DecidableEq, Repr

/-- The `/game/hit` route: reject a missing record, reject any phase other
than `in_progress` (the 400 response quoting the phase), else delegate to
the service.  Returns the response paired with the stored record after the
call. -/
def hit_api (g? : Option Game) (shuffle : List Card → List Card) :
    Except ApiError Game × Option Game :=
  match g? with
  | none => (.error .notInitialized, none)
  | some g =>
    if g.gameState ≠ "in_progress" then
      (.error (.wrongPhase g.gameState), some g)
    else
      match hit (some g) shuffle with
      | some g2 => (.ok g2, some g2)
      | none => (.error .internalError, some g)

/-- The `/game/stand` route, with the same guards as `/game/hit`. -/
def stand_api (g? : Option Game) (shuffle : List Card → List Card) :
    Except ApiError Game × Option Game :=
  match g? with
  | none => (.error .notInitialized, none)
  | some g =>
    if g.gameState ≠ "in_progress" then
      (.error (.wrongPhase g.gameState), some g)
    else
      match stand (some g) shuffle with
      | some g2 => (.ok g2, some g2)
      | none => (.error .internalError, some g)

theorem handle_round_over_bet (g : Game) (w msg : String) :
    (handle_round_over g w msg).bet = g.bet := by
  unfold handle_round_over
  split
  · split <;> rfl
  · split <;> rfl

/-- C3 counterexample: a bet below the minimum and a bet above the balance
come back from the service as the same bare failure (`None`), so the two
failure reasons are not distinguishable from the value `place_bet`
returns. -/
theorem place_bet_failures_look_alike :
    place_bet (some init_game) 0 create_deck create_deck
      = place_bet (some init_game) 1001 create_deck create_deck ∧
    place_bet (some init_game) 0 create_deck create_deck = none :=
  ⟨rfl, rfl⟩

/-- C3 amended: in any phase, `place_bet` fails exactly when the amount is
below 1 or above the balance (returning the same empty result in both
cases, which the transport caller then tells apart by re-checking the
balance itself), and betting the whole balance `m ≥ 1` succeeds with
`bet = m`. -/
theorem place_bet_spec (g : Game) (amount : Int) (sh fresh : List Card) :
    (place_bet (some g) amount sh fresh = none ↔
      amount < 1 ∨ g.playerMoney < amount) ∧
    (1 ≤ g.playerMoney →
      ∃ g2, place_bet (some g) g.playerMoney sh fresh = some g2 ∧
        (g2.bet : Int) = g.playerMoney) := by
  constructor
  · by_cases h1 : amount < 1
    · simp [place_bet, h1]
    · by_cases h2 : amount > g.playerMoney
      · simp [place_bet, h1, h2]
      · have hr : ¬ (amount < 1 ∨ g.playerMoney < amount) := by
          push_neg
          exact ⟨Int.not_lt.mp h1, Int.not_lt.mp h2⟩
        simp only [place_bet, Option.getD_some, if_neg h1, if_neg h2, hr,
          iff_false]
        split
        · split
          · simp
          · split <;> simp
        · simp
  · intro hm
    have h1 : ¬ ((g.playerMoney : Int) < 1) := Int.not_lt.mpr hm
    have h2 : ¬ (g.playerMoney > g.playerMoney) := lt_irrefl _
    have hbet : ((g.playerMoney.toNat : Nat) : Int) = g.playerMoney :=
      Int.toNat_of_nonneg (by omega)
    simp only [place_bet, Option.getD_some, if_neg h1, if_neg h2]
    split
    · split
      · refine ⟨_, rfl, ?_⟩
        rw [handle_round_over_bet]
        exact hbet
      · split
        · refine ⟨_, rfl, ?_⟩
          rw [handle_round_over_bet]
          exact hbet
        · refine ⟨_, rfl, ?_⟩
          rw [handle_round_over_bet]
          exact hbet
    · exact ⟨_, rfl, hbet⟩

/-- C4: a hit or stand request against a session resting in `idle` or
`round_over` is rejected with the wrong-phase error and the stored record
comes through the call unmodified in every field. -/
theorem hit_stand_wrong_phase (g : Game) (shuffle : List Card → List Card)
    (h : g.gameState = "idle" ∨ g.gameState = "round_over") :
    hit_api (some g) shuffle
        = (.error (.wrongPhase g.gameState), some g) ∧
    stand_api (some g) shuffle
        = (.error (.wrongPhase g.gameState), some g) := by
  have hne : g.gameState ≠ "in_progress" := by
    rcases h with h | h <;> rw [h] <;> decide
  simp [hit_api, stand_api, hne]

/-- Witness for C4: hitting or standing on a fresh idle session. -/
theorem hit_stand_wrong_phase_witness :
    hit_api (some init_game) id
        = (.error (.wrongPhase "idle"), some init_game) ∧
    stand_api (some init_game) id
        = (.error (.wrongPhase "idle"), some init_game) :=
  hit_stand_wrong_phase init_game id (Or.inl rfl)

theorem create_deck_nodup : create_deck.Nodup := by decide

/-- C6: a mid-round reshuffle leaves both hands alone and installs a deck
whose cards are exactly the full 52-card set minus the cards in either
hand, so deck and hands together hold no duplicate card. -/
theorem reshuffle_no_duplicates (g : Game) (n : Nat)
    (shuffle : List Card → List Card)
    (hshuffle : ∀ l, List.Perm (shuffle l) l)
    (hlow : g.deck.length < n)
    (hhands : (g.playerHand ++ g.dealerHand).Nodup) :
    (ensure_sufficient_deck g n shuffle).playerHand = g.playerHand ∧
    (ensure_sufficient_deck g n shuffle).dealerHand = g.dealerHand ∧
    (∀ c, c ∈ (ensure_sufficient_deck g n shuffle).deck ↔
      c ∈ create_deck ∧ c ∉ g.playerHand ++ g.dealerHand) ∧
    ((ensure_sufficient_deck g n shuffle).deck
        ++ (ensure_sufficient_deck g n shuffle).playerHand
        ++ (ensure_sufficient_deck g n shuffle).dealerHand).Nodup := by
  have hd : (ensure_sufficient_deck g n shuffle).deck
      = shuffle (remove_used_cards_from_deck create_deck
          (g.playerHand ++ g.dealerHand)) := by
    simp [ensure_sufficient_deck, hlow]
  have hph : (ensure_sufficient_deck g n shuffle).playerHand
      = g.playerHand := by
    simp [ensure_sufficient_deck, hlow]
  have hdh : (ensure_sufficient_deck g n shuffle).dealerHand
      = g.dealerHand := by
    simp [ensure_sufficient_deck, hlow]
  have hperm := hshuffle
    (remove_used_cards_from_deck create_deck (g.playerHand ++ g.dealerHand))
  have hmem : ∀ c, c ∈ (ensure_sufficient_deck g n shuffle).deck ↔
      c ∈ create_deck ∧ c ∉ g.playerHand ++ g.dealerHand := by
    intro c
    rw [hd, hperm.mem_iff]
    exact mem_remove_used_cards _ _ c
  refine ⟨hph, hdh, hmem, ?_⟩
  rw [hph, hdh, List.append_assoc]
  apply List.Nodup.append
  · rw [hd]
    exact hperm.nodup_iff.mpr (List.Nodup.filter _ create_deck_nodup)
  · exact hhands
  · intro c hc hc2
    exact ((hmem c).mp hc).2 hc2

/-- Witness for C6: reshuffling with one card in each hand. -/
def reshuffle_witness_game : Game :=
  { init_game with
    playerHand := [⟨.ace, .hearts⟩]
    dealerHand := [⟨.king, .spades⟩]
    gameState := "in_progress" }

theorem reshuffle_no_duplicates_witness :
    (ensure_sufficient_deck reshuffle_witness_game 1 id).playerHand
        = reshuffle_witness_game.playerHand ∧
    (ensure_sufficient_deck reshuffle_witness_game 1 id).dealerHand
        = reshuffle_witness_game.dealerHand ∧
    (∀ c, c ∈ (ensure_sufficient_deck reshuffle_witness_game 1 id).deck ↔
      c ∈ create_deck ∧
        c ∉ reshuffle_witness_game.playerHand
            ++ reshuffle_witness_game.dealerHand) ∧
    ((ensure_sufficient_deck reshuffle_witness_game 1 id).deck
        ++ (ensure_sufficient_deck reshuffle_witness_game 1 id).playerHand
        ++ (ensure_sufficient_deck reshuffle_witness_game 1 id).dealerHand).Nodup :=
  reshuffle_no_duplicates reshuffle_witness_game 1 id
    (fun l => List.Perm.refl l) (by decide) (by decide)

/-- The inductive invariant behind the balance claim: the balance is never
negative, and while a round is in progress the stored bet (validated when
placed) still fits in the balance. -/
abbrev GameInv (g : Game) : Prop :=
  0 ≤ g.playerMoney ∧
    (g.gameState = "in_progress" → (g.bet : Int) ≤ g.playerMoney)

theorem handle_round_over_inv (g : Game) (w msg : String)
    (h0 : 0 ≤ g.playerMoney) (hb : (g.bet : Int) ≤ g.playerMoney) :
    GameInv (handle_round_over g w msg) := by
  refine ⟨?_, ?_⟩
  · show 0 ≤ (handle_round_over g w msg).playerMoney
    simp only [handle_round_over]
    split
    · split
      · show 0 ≤ g.playerMoney + ((g.bet + 3 * g.bet / 2 : Nat) : Int)
        omega
      · show 0 ≤ g.playerMoney + ((g.bet * 2 : Nat) : Int)
        omega
    · split
      · show 0 ≤ g.playerMoney - (g.bet : Int)
        omega
      · exact h0
  · intro hc
    rw [handle_round_over_gameState] at hc
    exact absurd hc (by decide)

theorem ensure_deck_frame (g : Game) (n : Nat)
    (shuffle : List Card → List Card) :
    (ensure_sufficient_deck g n shuffle).playerMoney = g.playerMoney ∧
    (ensure_sufficient_deck g n shuffle).bet = g.bet ∧
    (ensure_sufficient_deck g n shuffle).gameState = g.gameState := by
  unfold ensure_sufficient_deck
  split <;> exact ⟨rfl, rfl, rfl⟩

theorem dealer_play_frame (shuffle : List Card → List Card) :
    ∀ (fuel : Nat) (g : Game),
      (dealer_play shuffle fuel g).playerMoney = g.playerMoney ∧
      (dealer_play shuffle fuel g).bet = g.bet ∧
      (dealer_play shuffle fuel g).gameState = g.gameState := by
  intro fuel
  induction fuel with
  | zero => intro g; exact ⟨rfl, rfl, rfl⟩
  | succ n ih =>
    intro g
    obtain ⟨hm, hb, hs⟩ := ensure_deck_frame g 1 shuffle
    simp only [dealer_play]
    split
    · split
      · exact ⟨hm, hb, hs⟩
      · refine ⟨?_, ?_, ?_⟩
        · rw [(ih _).1]
          exact hm
        · rw [(ih _).2.1]
          exact hb
        · rw [(ih _).2.2]
          exact hs
    · exact ⟨rfl, rfl, rfl⟩

theorem decide_winner_inv (g : Game) (h0 : 0 ≤ g.playerMoney)
    (hb : (g.bet : Int) ≤ g.playerMoney) : GameInv (decide_winner g) := by
  unfold decide_winner
  split
  · exact handle_round_over_inv g _ _ h0 hb
  · split
    · exact handle_round_over_inv g _ _ h0 hb
    · split
      · exact handle_round_over_inv g _ _ h0 hb
      · split
        · exact handle_round_over_inv g _ _ h0 hb
        · exact handle_round_over_inv g _ _ h0 hb

theorem place_bet_inv (g g' : Game) (amount : Int) (sh fresh : List Card)
    (hg : GameInv g)
    (heq : place_bet (some g) amount sh fresh = some g') : GameInv g' := by
  by_cases h1 : amount < 1
  · simp [place_bet, h1] at heq
  · by_cases h2 : amount > g.playerMoney
    · simp [place_bet, h1, h2] at heq
    · have hnn : (0 : Int) ≤ amount := by omega
      have hle : amount ≤ g.playerMoney := Int.not_lt.mp h2
      have hbet : ((amount.toNat : Nat) : Int) = amount :=
        Int.toNat_of_nonneg hnn
      simp only [place_bet, Option.getD_some, if_neg h1, if_neg h2] at heq
      split at heq
      · split at heq
        · rw [Option.some_inj] at heq
          subst heq
          apply handle_round_over_inv
          · exact hg.1
          · show ((amount.toNat : Nat) : Int) ≤ g.playerMoney
            rw [hbet]
            exact hle
        · split at heq
          · rw [Option.some_inj] at heq
            subst heq
            apply handle_round_over_inv
            · exact hg.1
            · show ((amount.toNat : Nat) : Int) ≤ g.playerMoney
              rw [hbet]
              exact hle
          · rw [Option.some_inj] at heq
            subst heq
            apply handle_round_over_inv
            · exact hg.1
            · show ((amount.toNat : Nat) : Int) ≤ g.playerMoney
              rw [hbet]
              exact hle
      · rw [Option.some_inj] at heq
        subst heq
        refine ⟨hg.1, ?_⟩
        intro _
        show ((amount.toNat : Nat) : Int) ≤ g.playerMoney
        rw [hbet]
        exact hle

theorem hit_inv (g g' : Game) (shuffle : List Card → List Card)
    (hg : GameInv g) (heq : hit (some g) shuffle = some g') : GameInv g' := by
  obtain ⟨hm, hbet, hgs⟩ := ensure_deck_frame g 1 shuffle
  simp only [hit] at heq
  split at heq
  · rw [Option.some_inj] at heq
    subst heq
    exact hg
  · rename_i hph
    have hph' : g.gameState = "in_progress" := not_not.mp hph
    have hb := hg.2 hph'
    split at heq
    · rw [Option.some_inj] at heq
      subst heq
      refine ⟨?_, ?_⟩
      · rw [hm]
        exact hg.1
      · intro _
        rw [hm, hbet]
        exact hb
    · split at heq
      · rw [Option.some_inj] at heq
        subst heq
        apply handle_round_over_inv
        · show 0 ≤ (ensure_sufficient_deck g 1 shuffle).playerMoney
          rw [hm]
          exact hg.1
        · show ((ensure_sufficient_deck g 1 shuffle).bet : Int)
              ≤ (ensure_sufficient_deck g 1 shuffle).playerMoney
          rw [hm, hbet]
          exact hb
      · split at heq
        · rw [Option.some_inj] at heq
          subst heq
          refine ⟨?_, ?_⟩
          · show 0 ≤ (ensure_sufficient_deck g 1 shuffle).playerMoney
            rw [hm]
            exact hg.1
          · intro _
            show ((ensure_sufficient_deck g 1 shuffle).bet : Int)
                ≤ (ensure_sufficient_deck g 1 shuffle).playerMoney
            rw [hm, hbet]
            exact hb
        · rw [Option.some_inj] at heq
          subst heq
          refine ⟨?_, ?_⟩
          · show 0 ≤ (ensure_sufficient_deck g 1 shuffle).playerMoney
            rw [hm]
            exact hg.1
          · intro _
            show ((ensure_sufficient_deck g 1 shuffle).bet : Int)
                ≤ (ensure_sufficient_deck g 1 shuffle).playerMoney
            rw [hm, hbet]
            exact hb

theorem stand_inv (g g' : Game) (shuffle : List Card → List Card)
    (hg : GameInv g) (heq : stand (some g) shuffle = some g') : GameInv g' := by
  simp only [stand] at heq
  split at heq
  · rw [Option.some_inj] at heq
    subst heq
    exact hg
  · rename_i hph
    have hph' : g.gameState = "in_progress" := not_not.mp hph
    have hb := hg.2 hph'
    obtain ⟨hm, hbet, hgs⟩ := dealer_play_frame shuffle 52 g
    rw [Option.some_inj] at heq
    subst heq
    apply decide_winner_inv
    · rw [hm]
      exact hg.1
    · rw [hm, hbet]
      exact hb

theorem new_round_inv (g : Game) (hg : GameInv g) : GameInv (new_round g) := by
  refine ⟨hg.1, ?_⟩
  intro hc
  rw [show (new_round g).gameState = "idle" from rfl] at hc
  exact absurd hc (by decide)

/-- The session states reachable from first initialization through any
sequence of successful engine calls (`place_bet`, `hit`, `stand`,
`new_round`, `reset_game`), over every random shuffle draw. -/
inductive Reachable : Game → Prop where
  | init : Reachable init_game
  | bet (g g' : Game) (amount : Int) (sh fresh : List Card) :
      Reachable g → place_bet (some g) amount sh fresh = some g' →
      Reachable g'
  | hit_step (g g' : Game) (shuffle : List Card → List Card) :
      Reachable g → hit (some g) shuffle = some g' → Reachable g'
  | stand_step (g g' : Game) (shuffle : List Card → List Card) :
      Reachable g → stand (some g) shuffle = some g' → Reachable g'
  | new_round_step (g : Game) : Reachable g → Reachable (new_round g)
  | reset_step (g : Game) : Reachable g → Reachable reset_game

theorem reachable_inv (g : Game) (h : Reachable g) : GameInv g := by
  induction h with
  | init => exact ⟨by decide, fun hc => absurd hc (by decide)⟩
  | bet g g' amount sh fresh _ heq ih => exact place_bet_inv g g' amount sh fresh ih heq
  | hit_step g g' shuffle _ heq ih => exact hit_inv g g' shuffle ih heq
  | stand_step g g' shuffle _ heq ih => exact stand_inv g g' shuffle ih heq
  | new_round_step g _ ih => exact new_round_inv g ih
  | reset_step g _ _ => exact ⟨by decide, fun hc => absurd hc (by decide)⟩

/-- C10: in every session state reachable from initialization through any
sequence of betting and play operations, the balance is never negative. -/
theorem reachable_playerMoney_nonneg (g : Game) (h : Reachable g) :
    0 ≤ g.playerMoney :=
  (reachable_inv g h).1

/-- Witness for C10: the freshly initialized record. -/
theorem reachable_playerMoney_nonneg_witness : 0 ≤ init_game.playerMoney :=
  reachable_playerMoney_nonneg init_game Reachable.init

/-- The gesture detector state (`GestureDetector` in
`gesture_service.py`): last label, last confidence, last detection time,
and the rolling history of (gesture, confidence, timestamp) entries.  The
lock and the resetting flag guard concurrent access and do not enter the
sequential semantics modelled here. -/
structure DetectorState where
  last_gesture : String
  gesture_confidence : ℚ
  last_detection_time : ℚ
  gesture_history : List (String × ℚ × ℚ)

/-- Models `self.gesture_persistence_duration = 1.0`. -/
def gesture_persistence_duration : ℚ := 1

/-- Models `self.max_history_length = 10`. -/
def max_history_length : Nat := 10

/-- Models `_calculate_smoothed_confidence(base_confidence, gesture)`: boost by
0.1 per matching label among the last three history entries, capped at
1. -/
def calculate_smoothed_confidence (s : DetectorState) (base_confidence : ℚ)
    (gesture : String) : ℚ :=
  if s.gesture_history = [] then base_confidence
  else
    let recent_same :=
      ((s.gesture_history.drop (s.gesture_history.length - 3)).filter
        (fun h => h.1 == gesture)).length
    min (base_confidence + recent_same * (1/10)) 1

/-- Models `_update_gesture_history(gesture, confidence)`: append, then drop the
oldest entry once the history exceeds its capacity. -/
def update_gesture_history (s : DetectorState) (gesture : String)
    (confidence now : ℚ) : List (String × ℚ × ℚ) :=
  let h := s.gesture_history ++ [(gesture, confidence, now)]
  if max_history_length < h.length then h.drop 1 else h

/-- Models `detect_gesture()`: inside the persistence window, return the previous
label with linearly decayed confidence (floor 0.1) and leave the state
untouched; past the window, adopt the drawn label (`draw`, standing for
the weighted random choice) with smoothed confidence (`base_confidence`
standing for the random base draw), update state and history.  Returns
the (label, confidence) pair with the detector state after the call. -/
def detect_gesture (s : DetectorState) (now : ℚ) (draw : String)
    (base_confidence : ℚ) : (String × ℚ) × DetectorState :=
  let time_since_last := now - s.last_detection_time
  if time_since_last < gesture_persistence_duration then
    ((s.last_gesture,
      max (1/10) (s.gesture_confidence - time_since_last * (1/10))), s)
  else
    let final_confidence := calculate_smoothed_confidence s base_confidence draw
    ((draw, final_confidence),
     { last_gesture := draw
       gesture_confidence := final_confidence
       last_detection_time := now
       gesture_history := update_gesture_history s draw final_confidence now })

/-- C9: a `detect()` call inside the persistence window returns the
previous label with the previous confidence decayed by 0.1 per elapsed
second (floor 0.1) and leaves the stored state untouched, so two calls
inside the window return the same label with non-increasing confidence. -/
theorem detect_gesture_debounce (s : DetectorState) (now now2 : ℚ)
    (draw draw2 : String) (base base2 : ℚ)
    (h1 : now - s.last_detection_time < gesture_persistence_duration)
    (h2 : now2 - s.last_detection_time < gesture_persistence_duration)
    (hle : now ≤ now2) :
    detect_gesture s now draw base
      = ((s.last_gesture,
          max (1/10)
            (s.gesture_confidence
              - (now - s.last_detection_time) * (1/10))), s) ∧
    (detect_gesture s now2 draw2 base2).1.1
        = (detect_gesture s now draw base).1.1 ∧
    (detect_gesture s now2 draw2 base2).1.2
        ≤ (detect_gesture s now draw base).1.2 := by
  have e1 : detect_gesture s now draw base
      = ((s.last_gesture,
          max (1/10)
            (s.gesture_confidence
              - (now - s.last_detection_time) * (1/10))), s) := by
    simp only [detect_gesture]
    rw [if_pos h1]
  have e2 : detect_gesture s now2 draw2 base2
      = ((s.last_gesture,
          max (1/10)
            (s.gesture_confidence
              - (now2 - s.last_detection_time) * (1/10))), s) := by
    simp only [detect_gesture]
    rw [if_pos h2]
  refine ⟨e1, ?_, ?_⟩
  · rw [e1, e2]
  · rw [e1, e2]
    show max (1/10) (s.gesture_confidence - (now2 - s.last_detection_time) * (1/10))
        ≤ max (1/10) (s.gesture_confidence - (now - s.last_detection_time) * (1/10))
    apply max_le_max le_rfl
    have hd : now - s.last_detection_time ≤ now2 - s.last_detection_time := by
      linarith
    linarith

/-- Witness for C9: a detector that saw "hit" at time 0 with confidence
one half, polled again at times one quarter and one half. -/
def detector_witness_state : DetectorState where
  last_gesture := "hit"
  gesture_confidence := 1/2
  last_detection_time := 0
  gesture_history := []

theorem detect_gesture_debounce_witness :
    detect_gesture detector_witness_state (1/4) "stand" (9/10)
      = ((detector_witness_state.last_gesture,
          max (1/10)
            (detector_witness_state.gesture_confidence
              - ((1/4) - detector_witness_state.last_detection_time)
                * (1/10))), detector_witness_state) ∧
    (detect_gesture detector_witness_state (1/2) "idle" (3/4)).1.1
        = (detect_gesture detector_witness_state (1/4) "stand" (9/10)).1.1 ∧
    (detect_gesture detector_witness_state (1/2) "idle" (3/4)).1.2
        ≤ (detect_gesture detector_witness_state (1/4) "stand" (9/10)).1.2 :=
  detect_gesture_debounce detector_witness_state (1/4) (1/2) "stand" "idle"
    (9/10) (3/4)
    (by norm_num [detector_witness_state, gesture_persistence_duration])
    (by norm_num [detector_witness_state, gesture_persistence_duration])
    (by norm_num)

/-- One entry of the session store, pairing the stored game record with
the `lastActivity` timestamp the janitor reads. -/
structure StoredSession where
  sid : String
  game : Game
  lastActivity : ℚ

/-- Modelled from the spec: `cleanup_old_sessions` (the session janitor's
`evictOlderThan`).  `main.py` imports it from `game_service`, but the
repository files contain no definition of it, so this follows the spec:
remove every record whose `lastActivity` is older than `now - maxAge` and
return the count removed. -/
def cleanup_old_sessions (store : List StoredSession) (now max_age : ℚ) :
    List StoredSession × Nat :=
  let kept := store.filter (fun s => decide (now - max_age ≤ s.lastActivity))
  (kept, store.length - kept.length)

/-- C8: the sweep removes exactly the records whose `lastActivity` lies
before `now - maxAge`, keeps the ones touched within the window, reports
the number removed, and with `maxAge = 0` (the shutdown sweep) clears
every session, all timestamps being in the past. -/
theorem cleanup_old_sessions_spec (store : List StoredSession)
    (now max_age : ℚ) (hpast : ∀ s ∈ store, s.lastActivity < now) :
    (∀ s ∈ store, s.lastActivity < now - max_age →
      s ∉ (cleanup_old_sessions store now max_age).1) ∧
    (∀ s ∈ store, now - max_age ≤ s.lastActivity →
      s ∈ (cleanup_old_sessions store now max_age).1) ∧
    ((cleanup_old_sessions store now max_age).2
      = (store.filter
          (fun s => decide (s.lastActivity < now - max_age))).length) ∧
    (max_age = 0 → (cleanup_old_sessions store now max_age).1 = []) := by
  refine ⟨?_, ?_, ?_, ?_⟩
  · intro s _ hold hmem
    rw [cleanup_old_sessions, List.mem_filter] at hmem
    rw [decide_eq_true_iff] at hmem
    exact absurd hmem.2 (not_le.mpr hold)
  · intro s hs hin
    rw [cleanup_old_sessions, List.mem_filter]
    exact ⟨hs, decide_eq_true hin⟩
  · show store.length
        - (store.filter
            (fun s => decide (now - max_age ≤ s.lastActivity))).length = _
    have hsplit := List.length_eq_length_filter_add (l := store)
      (fun s => decide (s.lastActivity < now - max_age))
    have hcompl : (store.filter
          (fun s => !(decide (s.lastActivity < now - max_age)))).length
        = (store.filter
            (fun s => decide (now - max_age ≤ s.lastActivity))).length := by
      congr 1
      apply List.filter_congr
      intro s _
      rw [← decide_not]
      exact decide_eq_decide.mpr not_lt
    omega
  · intro h0
    subst h0
    rw [cleanup_old_sessions]
    apply List.filter_eq_nil_iff.mpr
    intro s hs
    rw [Bool.not_eq_true, decide_eq_false_iff_not, not_le]
    have := hpast s hs
    linarith

/-- Witness for C8: a store holding one stale and one fresh session at
time 100 with a ten-second window. -/
def stale_session : StoredSession where
  sid := "stale"
  game := init_game
  lastActivity := 50

def fresh_session : StoredSession where
  sid := "fresh"
  game := init_game
  lastActivity := 95

theorem cleanup_old_sessions_spec_witness :
    (∀ s ∈ [stale_session, fresh_session], s.lastActivity < 100 - 10 →
      s ∉ (cleanup_old_sessions [stale_session, fresh_session] 100 10).1) ∧
    (∀ s ∈ [stale_session, fresh_session], 100 - 10 ≤ s.lastActivity →
      s ∈ (cleanup_old_sessions [stale_session, fresh_session] 100 10).1) ∧
    ((cleanup_old_sessions [stale_session, fresh_session] 100 10).2
      = ([stale_session, fresh_session].filter
          (fun s => decide (s.lastActivity < 100 - 10))).length) ∧
    ((10 : ℚ) = 0 →
      (cleanup_old_sessions [stale_session, fresh_session] 100 10).1 = []) :=
  cleanup_old_sessions_spec [stale_session, fresh_session] 100 10
    (by
      intro s hs
      rw [List.mem_cons, List.mem_singleton] at hs
      rcases hs with rfl | rfl
      · norm_num [stale_session]
      · norm_num [fresh_session])
